import Mathlib

/-!
Shallow embedding of the streaming chunk accumulator and response-dispatch
engine of `interpreter/core/async_core.py` (class `AsyncInterpreter` and the
websocket `send_output` worker).

A chunk or logical message is a JSON-like dict; only the keys the engine
inspects are modelled.  An `Option` field value of `none` means the key is
absent from the dict.  The boundary markers `start` and `end` are modelled as
presence flags (the code only tests key membership, never the value).
Python exceptions are modelled with `Except`; each error constructor names
the Python exception class the code would raise at that point.
-/

namespace AsyncCore

/-- Decidable equality on `Except`, so model outputs can be compared by
evaluation. -/
instance {ε α : Type} [DecidableEq ε] [DecidableEq α] : DecidableEq (Except ε α) :=
  fun a b =>
    match a, b with
    | .ok x, .ok y =>
      if h : x = y then isTrue (by rw [h])
      else isFalse (by intro hh; injection hh; contradiction)
    | .error x, .error y =>
      if h : x = y then isTrue (by rw [h])
      else isFalse (by intro hh; injection hh; contradiction)
    | .ok _, .error _ => isFalse (by intro hh; exact Except.noConfusion hh)
    | .error _, .ok _ => isFalse (by intro hh; exact Except.noConfusion hh)

/-- Content of a chunk or message: UTF-8 text or a raw byte string
(bytes modelled as a list of byte values). -/
inductive Content where
  | text (s : String)
  | binary (b : List Nat)
deriving DecidableEq, Repr

/-- A chunk / logical message dict.  `none` = key absent.  The Python key
`end` is spelled `endM` because `end` is reserved in Lean. -/
structure Msg where
  role : Option String := none
  type : Option String := none
  format : Option String := none
  content : Option Content := none
  start : Bool := false
  endM : Bool := false
deriving DecidableEq, Repr

/-- Input to `accumulate`: a dict chunk or a raw binary frame
(`json.loads` of a str input yields the dict case). -/
inductive In where
  | dict (c : Msg)
  | binary (b : List Nat)
deriving DecidableEq, Repr

/-- Python exceptions `accumulate` can raise: the explicit
`Exception("You must send a 'start: True' chunk first ...")`, a `KeyError`
from reading a missing key, an `IndexError` from `messages[-1]` on an empty
log, and a `TypeError` from `+=` on mismatched content representations. -/
inductive AccErr where
  | protocolError
  | keyError
  | indexError
  | typeError
deriving DecidableEq, Repr

/-- Python truthiness of `chunk.get("format")`: present and non-empty. -/
def truthyFormat : Option String → Bool
  | some s => !(s == "")
  | none => false

/-- `a += b` on message content: concatenation within one representation,
`TypeError` across representations. -/
def catContent : Content → Content → Except AccErr Content
  | .text a, .text b => .ok (.text (a ++ b))
  | .binary a, .binary b => .ok (.binary (a ++ b))
  | _, _ => .error .typeError

/-- Line 161-172 inner test: the chunk conflicts with the last message on
`type` (the last message has a `type` key and the chunk `type` read via
`.get` differs). -/
def typeMismatch (l c : Msg) : Bool :=
  l.type.isSome && (c.type != l.type)

/-- Line 161-172 inner test for `format`. -/
def formatMismatch (l c : Msg) : Bool :=
  l.format.isSome && (c.format != l.format)

/-- The negated guard of the append branch: no conflict with the last
message (vacuously true on an empty log). -/
def appendCompatible (messages : List Msg) (c : Msg) : Bool :=
  match messages.getLast? with
  | none => true
  | some l => !(typeMismatch l c || formatMismatch l c)

/-- Backfill and concatenation performed on the last message by the append
branch (lines 179-190): backfill `type` (reading `chunk["type"]`, a
`KeyError` when the chunk lacks it), backfill `format` when the chunk value
is truthy, then initialize or concatenate `content`. -/
def appendToLast (l c : Msg) : Except AccErr Msg :=
  match (match l.type with
    | some _ => Except.ok l
    | none =>
      match c.type with
      | none => Except.error AccErr.keyError
      | some t => Except.ok {l with type := some t}) with
  | .error e => .error e
  | .ok l₁ =>
    let l₂ := if truthyFormat c.format && l₁.format.isNone then {l₁ with format := c.format} else l₁
    match l₂.content, c.content with
    | none, cc => .ok {l₂ with content := cc}
    | some lc, some cc =>
      match catContent lc cc with
      | .error e => .error e
      | .ok nc => .ok {l₂ with content := some nc}
    | some _, none => .ok l₂

/-- The fresh logical message opened by the new-message branch
(lines 203-211): copy the chunk, strip `start`, default `content` to the
empty string when absent. -/
def newMessage (c : Msg) : Msg :=
  {c with start := false, content := some (c.content.getD (.text ""))}

/-- `AsyncInterpreter.accumulate` (lines 149-216), as a pure function from
the conversation log and one input to the new log (or the raised
exception).  Branches in source order: discard `active_line`; append a
content chunk compatible with the last message (raising the protocol error
on an empty log); open a new message on `start` or on a `type`/`format`
switch; fall through as a no-op; binary frames extend the last message. -/
def accumulate (messages : List Msg) : In → Except AccErr (List Msg)
  | .dict c =>
    if c.format == some "active_line" then
      .ok messages
    else if c.content.isSome && appendCompatible messages c then
      match messages.getLast? with
      | none => .error .protocolError
      | some l =>
        match appendToLast l c with
        | .error e => .error e
        | .ok l₂ => .ok (messages.dropLast ++ [l₂])
    else if c.start || (match messages.getLast? with
        | some l => (c.type != l.type) || (c.format != l.format)
        | none => false) then
      .ok (messages ++ [newMessage c])
    else
      .ok messages
  | .binary b =>
    match messages.getLast? with
    | none => .error .indexError
    | some l =>
      match l.content with
      | none => .error .keyError
      | some (.text s) =>
        if s == "" then .ok (messages.dropLast ++ [{l with content := some (.binary b)}])
        else .error .typeError
      | some (.binary b0) => .ok (messages.dropLast ++ [{l with content := some (.binary (b0 ++ b))}])

/-- Folding `accumulate` over a sequence of inputs, propagating the first
raised exception. -/
def accumSeq (messages : List Msg) : List In → Except AccErr (List Msg)
  | [] => .ok messages
  | x :: xs =>
    match accumulate messages x with
    | .error e => .error e
    | .ok ms => accumSeq ms xs

/-! ## The response driver (`AsyncInterpreter.respond`, lines 102-147)

The delegated generator `_respond_and_store()` is modelled as the finite
list of chunks it yields plus a terminal outcome (normal exhaustion, or an
exception raised after the listed chunks).  The shared `stop_event` is
modelled as the boolean value `stopped i` read at the check following the
i-th pulled chunk.  The model value is the sequence of items pushed onto
the output queue, in order; `respond` is total, so the model also witnesses
that no exception escapes to the caller of `respond`. -/

/-- The fixed completion sentinel (line 37). -/
def complete_message : Msg :=
  {role := some "server", type := some "status", content := some (.text "complete")}

/-- The server error chunk built in the `except` handler (lines 138-142),
carrying the diagnostic text of the failure. -/
def errorMessage (e : String) : Msg :=
  {role := some "server", type := some "error", content := some (.text e)}

/-- Diagnostic text used for the `KeyError` raised by `chunk["type"]`
(line 112) on a chunk with no `type` key; the handler catches it like any
other exception. -/
def keyErrorText : String := "KeyError: type"

/-- Terminal outcome of the delegated generator: exhausted normally, or
raised an exception (with its diagnostic text) after its chunks. -/
inductive GenOutcome where
  | done
  | raises (e : String)
deriving DecidableEq, Repr

/-- The `for chunk_og in self._respond_and_store()` loop of `respond`
(lines 107-135) together with the `except` handler (lines 136-147):
consume or deny `confirmation` chunks, return silently when the stop event
is set, otherwise push the chunk; on exhaustion push the sentinel; on an
exception push the error chunk then the sentinel.  Returns the queue
pushes in order. -/
def respondGo (stopped : Nat → Bool) : Bool → Nat → List Msg → GenOutcome → List Msg
  | _, _, [], .done => [complete_message]
  | _, _, [], .raises e => [errorMessage e, complete_message]
  | runCode, i, c :: rest, outcome =>
    match c.type with
    | none => [errorMessage keyErrorText, complete_message]
    | some t =>
      if t == "confirmation" then
        if runCode then respondGo stopped false (i + 1) rest outcome
        else [complete_message]
      else if stopped i then []
      else c :: respondGo stopped runCode (i + 1) rest outcome

/-- `AsyncInterpreter.respond(run_code)`: a `None` argument defaults to the
standing `auto_run` policy (lines 104-105), then the loop runs. -/
def respond (autoRun : Bool) (runCodeArg : Option Bool) (stopped : Nat → Bool)
    (chunks : List Msg) (outcome : GenOutcome) : List Msg :=
  respondGo stopped (runCodeArg.getD autoRun) 0 chunks outcome

/-- The loop pulls every generator chunk: every chunk has a `type`, each
`confirmation` arrives while `run_code` is still true, and the stop event
is never observed set. -/
def reachesEnd (stopped : Nat → Bool) : Bool → Nat → List Msg → Bool
  | _, _, [] => true
  | runCode, i, c :: rest =>
    match c.type with
    | none => false
    | some t =>
      if t == "confirmation" then runCode && reachesEnd stopped false (i + 1) rest
      else !stopped i && reachesEnd stopped runCode (i + 1) rest

/-! ## The input dispatcher (`AsyncInterpreter.input`, lines 57-95)

State of the agent as `input` sees it: the conversation log, the worker
thread (`none` = the attribute is still `None`, `some alive` = a thread
object whose `is_alive()` is `alive`), and the stop event.  `join` on a
thread is modelled as the thread becoming not-alive (the join blocks until
the worker unwinds).  The returned effect records whether a new response
cycle was spawned and with which `run_code` argument. -/

structure IState where
  messages : List Msg
  threadAlive : Option Bool
  stopEvent : Bool
deriving DecidableEq, Repr

/-- Exceptions `input` can raise: one propagated from `accumulate`, an
`IndexError` from `self.messages[-1]` on an empty log, a `KeyError` from
`self.messages[-1]["content"]`, and an `AttributeError` from
`self.respond_thread.join()` when `respond_thread` is `None`. -/
inductive InErr where
  | acc (e : AccErr)
  | indexError
  | keyError
  | attributeError
deriving DecidableEq, Repr

/-- Whether `input` spawned a new response-cycle worker, and the `run_code`
argument it was given. -/
inductive InputEff where
  | noCycle
  | spawned (runCode : Option Bool)
deriving DecidableEq, Repr

/-- `AsyncInterpreter.input(chunk)` (lines 57-95): a `start` chunk first
cancels and joins a live worker, then accumulates; a `content` chunk
accumulates; an `end` chunk pops a trailing `command` message and either
handles `stop` (set the event, join, no new cycle), or spawns a new worker
with `run_code = True` for `go` and `None` otherwise. -/
def inputStep (s : IState) (c : Msg) : Except InErr (IState × InputEff) :=
  if c.start then
    let s₂ := if s.threadAlive == some true
      then {s with stopEvent := true, threadAlive := some false}
      else s
    match accumulate s₂.messages (.dict c) with
    | .error e => .error (.acc e)
    | .ok ms => .ok ({s₂ with messages := ms}, .noCycle)
  else if c.content.isSome then
    match accumulate s.messages (.dict c) with
    | .error e => .error (.acc e)
    | .ok ms => .ok ({s with messages := ms}, .noCycle)
  else if c.endM then
    match s.messages.getLast? with
    | none => .error .indexError
    | some l =>
      if l.type == some "command" then
        match l.content with
        | none => .error .keyError
        | some cmd =>
          let s₂ := {s with messages := s.messages.dropLast}
          if cmd == .text "stop" then
            match s₂.threadAlive with
            | none => .error .attributeError
            | some _ => .ok ({s₂ with stopEvent := true, threadAlive := some false}, .noCycle)
          else
            let rc : Option Bool := if cmd == .text "go" then some true else none
            .ok ({s₂ with stopEvent := false, threadAlive := some true}, .spawned rc)
      else
        .ok ({s with stopEvent := false, threadAlive := some true}, .spawned none)
  else
    .ok (s, .noCycle)

/-! ## The delivery worker (`send_output`, lines 438-505)

Model of the delivery of one non-binary output item over a transport whose
`send_text` succeeds, in acknowledgment mode.  `ack a j` tells whether the
generated identifier of the item is found in `acknowledged_outputs` at the
j-th poll of delivery attempt `a`.  The model returns the number of
membership polls performed in each delivery attempt, in order, and the
final outcome. -/

/-- Inner acknowledgment-poll ceiling (`for _ in range(1000)`, line 458). -/
def ACK_POLLS : Nat := 1000

/-- Outer delivery-attempt ceiling (`for attempt in range(100)`, line 446). -/
def SEND_ATTEMPTS : Nat := 100

/-- Final outcome of delivering one output item: acknowledged, or the
`for`-`else` `Exception("Failed to send after 100 attempts...")` reported
through the websocket error path. -/
inductive SendResult where
  | delivered
  | deliveryFailure
deriving DecidableEq, Repr

/-- The inner poll loop (lines 458-469): up to `fuel` membership checks,
stopping early when the identifier is found; returns the number of checks
performed and whether it was acknowledged. -/
def ackPoll (ack : Nat → Bool) : Nat → Nat → Nat × Bool
  | 0, used => (used, false)
  | fuel + 1, used =>
    if ack used then (used + 1, true)
    else ackPoll ack fuel (used + 1)

/-- The outer attempt loop (lines 446-493) in acknowledgment mode for a
non-binary item: each attempt sends the item then polls; an acknowledged
attempt ends the delivery, an unacknowledged one raises, is caught, and
the next attempt begins; exhausting all attempts triggers the `for`-`else`
delivery failure. -/
def sendGo (ack : Nat → Nat → Bool) : Nat → Nat → List Nat × SendResult
  | _, 0 => ([], .deliveryFailure)
  | attempt, fuel + 1 =>
    let r := ackPoll (ack attempt) ACK_POLLS 0
    if r.2 then ([r.1], .delivered)
    else
      let rest := sendGo ack (attempt + 1) fuel
      (r.1 :: rest.1, rest.2)

/-- Delivery of one non-binary output item by `send_output` with
`require_acknowledge` enabled and a transport whose sends succeed. -/
def sendOutput (ack : Nat → Nat → Bool) : List Nat × SendResult :=
  sendGo ack 0 SEND_ATTEMPTS

/-! ## Theorems about the accumulator -/

lemma beq_false_of_ne {α : Type} [BEq α] [LawfulBEq α] {a b : α} (h : a ≠ b) :
    (a == b) = false := by
  simp [beq_eq_false_iff_ne, h]

/-- Claim C3: a chunk carrying textual content, with no start marker and not
of format active_line, sent to an empty conversation log makes accumulate
raise the protocol error ("You must send a start: True chunk first"); the
raise happens before any mutation, so the log remains empty. -/
theorem accumulate_empty_log_protocol_error (c : Msg) (s : String)
    (hcontent : c.content = some (.text s))
    (_hstart : c.start = false)
    (hformat : c.format ≠ some "active_line") :
    accumulate [] (.dict c) = .error .protocolError := by
  have hf : (c.format == some "active_line") = false := beq_false_of_ne hformat
  simp [accumulate, hf, hcontent, appendCompatible]

/-- Witness for C3 at the chunk `{type: "message", content: "hi"}`. -/
theorem accumulate_empty_log_protocol_error_witness :
    accumulate [] (.dict {type := some "message", content := some (.text "hi")}) =
      .error .protocolError :=
  accumulate_empty_log_protocol_error
    {type := some "message", content := some (.text "hi")} "hi" rfl rfl (by decide)

/-- Claim C10: the append branch backfills a missing type on the last
message by reading the chunk key `type` unconditionally, so a content chunk
with no `type` key appended onto a type-less open message raises `KeyError`
instead of appending (nothing is mutated, since the read precedes the
assignment). -/
theorem accumulate_typeless_backfill_keyerror (ms : List Msg) (l c : Msg)
    (hltype : l.type = none)
    (hctype : c.type = none)
    (hcontent : c.content.isSome = true)
    (hformat : c.format ≠ some "active_line")
    (hfm : formatMismatch l c = false) :
    accumulate (ms ++ [l]) (.dict c) = .error .keyError := by
  have hf : (c.format == some "active_line") = false := beq_false_of_ne hformat
  have hcompat : appendCompatible (ms ++ [l]) c = true := by
    simp [appendCompatible, List.getLast?_concat, typeMismatch, hltype, hfm]
  simp [accumulate, hf, hcontent, hcompat, List.getLast?_concat, appendToLast, hltype, hctype]

/-- Witness for C10: a bare `{content: "b"}` chunk after the type-less open
message `{content: "a"}`. -/
theorem accumulate_typeless_backfill_keyerror_witness :
    accumulate [{content := some (.text "a")}] (.dict {content := some (.text "b")}) =
      .error .keyError :=
  accumulate_typeless_backfill_keyerror []
    {content := some (.text "a")} {content := some (.text "b")}
    rfl rfl rfl (by decide) rfl

/-- Claim C9: a binary frame passed to accumulate converts an
empty-string content of the last message into a binary buffer holding the
payload, and extends an already-binary content by concatenation, so content
that has become binary stays binary under further binary frames. -/
theorem accumulate_binary_extends (ms : List Msg) (l : Msg) (b : List Nat) :
    (l.content = some (.text "") →
      accumulate (ms ++ [l]) (.binary b) =
        .ok (ms ++ [{l with content := some (.binary b)}])) ∧
    (∀ b0, l.content = some (.binary b0) →
      accumulate (ms ++ [l]) (.binary b) =
        .ok (ms ++ [{l with content := some (.binary (b0 ++ b))}])) := by
  constructor
  · intro h
    simp [accumulate, List.getLast?_concat, h]
  · intro b0 h
    simp [accumulate, List.getLast?_concat, h]

/-- Witness for C9: bytes `[1,2]` onto an empty-string image message, then
bytes `[3]` onto the binary result. -/
theorem accumulate_binary_extends_witness :
    accumulate [{type := some "image", content := some (.text "")}] (.binary [1, 2]) =
      .ok [{type := some "image", content := some (.binary [1, 2])}] ∧
    accumulate [{type := some "image", content := some (.binary [1, 2])}] (.binary [3]) =
      .ok [{type := some "image", content := some (.binary [1, 2, 3])}] :=
  ⟨(accumulate_binary_extends [] {type := some "image", content := some (.text "")} [1, 2]).1 rfl,
   (accumulate_binary_extends [] {type := some "image", content := some (.binary [1, 2])} [3]).2
     [1, 2] rfl⟩

/-- The append branch on textual contents: backfill succeeds when the last
message or the chunk has a type, and the resulting content is the
concatenation. -/
lemma appendToLast_text (l c : Msg) (t s : String)
    (hlc : l.content = some (.text t)) (hcc : c.content = some (.text s))
    (hty : l.type.isSome = true ∨ c.type.isSome = true) :
    ∃ l₂, appendToLast l c = .ok l₂ ∧ l₂.content = some (.text (t ++ s)) := by
  rcases hl : l.type with _ | τ
  · rcases hc : c.type with _ | τc
    · exfalso
      rcases hty with h | h
      · rw [hl] at h; exact Bool.noConfusion h
      · rw [hc] at h; exact Bool.noConfusion h
    · by_cases hcond : (truthyFormat c.format && l.format.isNone) = true
      · refine ⟨{l with type := some τc, format := c.format, content := some (.text (t ++ s))}, ?_, rfl⟩
        simp [appendToLast, hl, hc, hlc, hcc, catContent, hcond]
      · refine ⟨{l with type := some τc, content := some (.text (t ++ s))}, ?_, rfl⟩
        simp [appendToLast, hl, hc, hlc, hcc, catContent, Bool.eq_false_iff.mpr hcond]
  · by_cases hcond : (truthyFormat c.format && l.format.isNone) = true
    · refine ⟨{l with format := c.format, content := some (.text (t ++ s))}, ?_, rfl⟩
      simp [appendToLast, hl, hlc, hcc, catContent, hcond]
    · refine ⟨{l with content := some (.text (t ++ s))}, ?_, rfl⟩
      simp [appendToLast, hl, hlc, hcc, catContent, Bool.eq_false_iff.mpr hcond]

/-- Counterexample to claim C1 as stated: the literal chunk sequence
`[{start:true, type:"message"}, {content:"a"}, {content:"b"}]` does not
leave one message with content "ab" — the second chunk conflicts with the
last message (the last message has a `type` key and the bare chunk reads as
type `None`), so it opens a second message, and the third chunk then hits
the type backfill `KeyError`; accumulation never returns a log at all. -/
theorem accumulate_bare_content_sequence_cex :
    accumSeq [] [.dict {start := true, type := some "message"},
      .dict {content := some (.text "a")},
      .dict {content := some (.text "b")}] = .error .keyError ∧
    ∀ ms : List Msg, accumSeq [] [.dict {start := true, type := some "message"},
      .dict {content := some (.text "a")},
      .dict {content := some (.text "b")}] ≠ .ok ms := by
  have h : accumSeq [] [.dict {start := true, type := some "message"},
      .dict {content := some (.text "a")},
      .dict {content := some (.text "b")}] = .error .keyError := by decide
  exact ⟨h, fun ms hm => by rw [h] at hm; exact Except.noConfusion hm⟩

/-- Claim C1 (amended): with content chunks that repeat the type of the open
message, the sequence `[{start:true, type:"message"},
{type:"message", content:"a"}, {type:"message", content:"b"}]` yields
exactly one logical message with content "ab"; in general a textual content
chunk is appended to the last open message whenever for each of `type` and
`format` the LAST message either lacks the key or its value equals the
chunk's (the chunk's absent key reading as a distinct null value), and the
appended content is the concatenation. -/
theorem accumulate_append_concatenates (init : List Msg) (l c : Msg) (t s : String)
    (hlc : l.content = some (.text t))
    (hcc : c.content = some (.text s))
    (hformat : c.format ≠ some "active_line")
    (htm : typeMismatch l c = false)
    (hfm : formatMismatch l c = false)
    (hty : l.type.isSome = true ∨ c.type.isSome = true) :
    (∃ l₂, accumulate (init ++ [l]) (.dict c) = .ok (init ++ [l₂]) ∧
      l₂.content = some (.text (t ++ s))) ∧
    accumSeq [] [.dict {start := true, type := some "message"},
      .dict {type := some "message", content := some (.text "a")},
      .dict {type := some "message", content := some (.text "b")}] =
      .ok [{type := some "message", content := some (.text "ab")}] := by
  constructor
  · have hf : (c.format == some "active_line") = false := beq_false_of_ne hformat
    have hcompat : appendCompatible (init ++ [l]) c = true := by
      simp [appendCompatible, List.getLast?_concat, htm, hfm]
    obtain ⟨l₂, hap, hc2⟩ := appendToLast_text l c t s hlc hcc hty
    refine ⟨l₂, ?_, hc2⟩
    simp [accumulate, hf, hcc, hcompat, List.getLast?_concat, hap]
  · decide

/-- Witness for C1 (amended) at the chunk `{type:"message", content:"b"}`
appended onto the log `[{type:"message", content:"a"}]`. -/
theorem accumulate_append_concatenates_witness :
    (∃ l₂, accumulate ([] ++ [{type := some "message", content := some (.text "a")}])
        (.dict {type := some "message", content := some (.text "b")}) =
        .ok ([] ++ [l₂]) ∧ l₂.content = some (.text ("a" ++ "b"))) ∧
    accumSeq [] [.dict {start := true, type := some "message"},
      .dict {type := some "message", content := some (.text "a")},
      .dict {type := some "message", content := some (.text "b")}] =
      .ok [{type := some "message", content := some (.text "ab")}] :=
  accumulate_append_concatenates [] {type := some "message", content := some (.text "a")}
    {type := some "message", content := some (.text "b")} "a" "b"
    rfl rfl (by decide) (by decide) (by decide) (Or.inl rfl)

/-- Counterexample to claim C4 as stated: the append branch never consults
the `start` marker, so the start chunk `{start:true, type:"message",
content:"x"}` arriving when the last message is `{type:"message",
content:"a"}` is APPENDED (log still one message, content "ax") instead of
opening a new logical message. -/
theorem accumulate_start_chunk_appends_cex :
    accumulate [{type := some "message", content := some (.text "a")}]
        (.dict {start := true, type := some "message", content := some (.text "x")}) =
      .ok [{type := some "message", content := some (.text "ax")}] ∧
    accumulate [{type := some "message", content := some (.text "a")}]
        (.dict {start := true, type := some "message", content := some (.text "x")}) ≠
      .ok [{type := some "message", content := some (.text "a")},
        newMessage {start := true, type := some "message", content := some (.text "x")}] := by
  constructor
  · decide
  · decide

/-- Claim C4 (amended): a chunk carrying a start marker opens a new logical
message provided it does not carry content compatible with the last message
(in particular whenever it carries no content key), and any chunk whose
`type` or `format` conflicts with the last message under the append test
opens a new logical message; the new message is a copy of the chunk with
the start key removed and content defaulted to the empty string when
absent, the previous messages are left unchanged, and the chunk itself is
not mutated (the model is pure and the code copies before editing). -/
theorem accumulate_new_message (ms : List Msg) (c : Msg)
    (hformat : c.format ≠ some "active_line") :
    (c.start = true → c.content = none →
      accumulate ms (.dict c) = .ok (ms ++ [newMessage c])) ∧
    (∀ init l, ms = init ++ [l] →
      (typeMismatch l c || formatMismatch l c) = true →
      accumulate ms (.dict c) = .ok (ms ++ [newMessage c])) := by
  have hf : (c.format == some "active_line") = false := beq_false_of_ne hformat
  constructor
  · intro hstart hcontent
    simp [accumulate, hf, hcontent, hstart]
  · intro init l hms hmm
    subst hms
    have hcompat : appendCompatible (init ++ [l]) c = false := by
      simp only [appendCompatible, List.getLast?_concat, hmm]
      rfl
    have hmm₂ : (c.type != l.type || c.format != l.format) = true := by
      rcases Bool.or_eq_true_iff.mp hmm with h | h
      · simp only [typeMismatch, Bool.and_eq_true] at h
        exact Bool.or_eq_true_iff.mpr (Or.inl h.2)
      · simp only [formatMismatch, Bool.and_eq_true] at h
        exact Bool.or_eq_true_iff.mpr (Or.inr h.2)
    simp [accumulate, hf, hcompat, List.getLast?_concat, hmm₂]

/-- Witness for C4 (amended): a content-less start chunk on an empty log,
and the type switch message → code without a start marker. -/
theorem accumulate_new_message_witness :
    (accumulate [] (.dict {role := some "user", type := some "message", start := true}) =
      .ok ([] ++ [newMessage {role := some "user", type := some "message", start := true}])) ∧
    (accumulate [{type := some "message", content := some (.text "a")}]
        (.dict {type := some "code", content := some (.text "x")}) =
      .ok ([{type := some "message", content := some (.text "a")}] ++
        [newMessage {type := some "code", content := some (.text "x")}])) :=
  ⟨(accumulate_new_message [] {role := some "user", type := some "message", start := true}
      (by decide)).1 rfl rfl,
   (accumulate_new_message [{type := some "message", content := some (.text "a")}]
      {type := some "code", content := some (.text "x")} (by decide)).2
      [] {type := some "message", content := some (.text "a")} rfl (by decide)⟩

/-! ## Theorems about the response driver -/

/-- Chunks of any type other than confirmation are forwarded. -/
def notConfirmation (c : Msg) : Bool := !(c.type == some "confirmation")

/-- When the loop pulls every generator chunk, the queue receives the
non-confirmation chunks in order followed by the terminator block of the
outcome: the sentinel alone on normal exhaustion, the error chunk then the
sentinel on an exception. -/
lemma respondGo_reachesEnd (stopped : Nat → Bool) (outcome : GenOutcome) :
    ∀ (chunks : List Msg) (rc : Bool) (i : Nat),
      reachesEnd stopped rc i chunks = true →
      respondGo stopped rc i chunks outcome =
        chunks.filter notConfirmation ++
          (match outcome with
            | .done => [complete_message]
            | .raises e => [errorMessage e, complete_message]) := by
  intro chunks
  induction chunks with
  | nil =>
    intro rc i _
    cases outcome <;> simp [respondGo]
  | cons c rest ih =>
    intro rc i h
    unfold reachesEnd at h
    rcases hct : c.type with _ | t
    · rw [hct] at h
      exact Bool.noConfusion h
    · rw [hct] at h
      rcases hconf : (t == "confirmation") with _ | _
      · simp only [hconf, Bool.false_eq_true, if_false, Bool.and_eq_true,
          Bool.not_eq_true'] at h
        have hne : t ≠ "confirmation" := beq_eq_false_iff_ne.mp hconf
        have hkeep : notConfirmation c = true := by
          simp [notConfirmation, hct, hne]
        simp [respondGo, hct, hconf, h.1, List.filter_cons, hkeep,
          ih rc (i + 1) h.2]
      · simp only [hconf, if_true, Bool.and_eq_true] at h
        have hdrop : notConfirmation c = false := by
          have ht : t = "confirmation" := beq_iff_eq.mp hconf
          simp [notConfirmation, hct, ht]
        simp [respondGo, hct, hconf, h.1, List.filter_cons, hdrop,
          ih false (i + 1) h.2]

/-- Claim C2: when the delegated generator is exhausted normally (no
cancellation observed, no denied confirmation, every pulled chunk survives
the loop body) the last item pushed to the queue is exactly the completion
sentinel; and when the generator instead raises, respond pushes the
server error chunk carrying the diagnostic text followed by that same
sentinel.  `respond` is a total function of its inputs, so no exception
propagates to its caller. -/
theorem respond_terminator (stopped : Nat → Bool) (rc : Bool) (i : Nat)
    (chunks : List Msg)
    (h : reachesEnd stopped rc i chunks = true) :
    ((respondGo stopped rc i chunks .done).getLast? = some complete_message) ∧
    (∀ e, respondGo stopped rc i chunks (.raises e) =
      chunks.filter notConfirmation ++ [errorMessage e, complete_message]) := by
  constructor
  · rw [respondGo_reachesEnd stopped .done chunks rc i h]
    exact List.getLast?_concat _
  · intro e
    exact respondGo_reachesEnd stopped (.raises e) chunks rc i h

/-- Witness for C2: one assistant message chunk, stop event never set. -/
theorem respond_terminator_witness :
    ((respondGo (fun _ => false) true 0
        [{role := some "assistant", type := some "message", content := some (.text "ok")}]
        .done).getLast? = some complete_message) ∧
    (∀ e, respondGo (fun _ => false) true 0
        [{role := some "assistant", type := some "message", content := some (.text "ok")}]
        (.raises e) =
      [{role := some "assistant", type := some "message", content := some (.text "ok")}].filter
          notConfirmation ++ [errorMessage e, complete_message]) :=
  respond_terminator (fun _ => false) true 0
    [{role := some "assistant", type := some "message", content := some (.text "ok")}]
    (by decide)

/-- Claim C5: with run_code false the first confirmation chunk ends the
cycle — no generator chunk at or after it is pushed, only the chunks before
it followed by the sentinel (the `break` still falls through to the
sentinel push); with run_code true the first confirmation is consumed
without being emitted and the loop continues with run_code false. -/
theorem respond_confirmation (stopped : Nat → Bool) (i : Nat)
    (pre post : List Msg) (conf : Msg) (outcome : GenOutcome)
    (hstop : ∀ j, stopped j = false)
    (hpre : ∀ c ∈ pre, ∃ t, c.type = some t ∧ t ≠ "confirmation")
    (hconf : conf.type = some "confirmation") :
    respondGo stopped false i (pre ++ conf :: post) outcome =
      pre ++ [complete_message] ∧
    respondGo stopped true i (pre ++ conf :: post) outcome =
      pre ++ respondGo stopped false (i + pre.length + 1) post outcome := by
  induction pre generalizing i with
  | nil =>
    constructor
    · simp [respondGo, hconf]
    · simp [respondGo, hconf]
  | cons c pre ih =>
    obtain ⟨t, hct, htc⟩ := hpre c (List.mem_cons_self c pre)
    have hpre₂ : ∀ x ∈ pre, ∃ t, x.type = some t ∧ t ≠ "confirmation" :=
      fun x hx => hpre x (List.mem_cons_of_mem c hx)
    have h₂ := ih (i + 1) hpre₂
    constructor
    · have e1 := h₂.1
      simp [respondGo, hct, beq_false_of_ne htc, hstop i, e1]
    · have e2 := h₂.2
      have harith : i + 1 + pre.length + 1 = i + (pre.length + 1) + 1 := by omega
      rw [harith] at e2
      simp [respondGo, hct, beq_false_of_ne htc, hstop i, e2]

/-- Witness for C5: a console chunk, then a confirmation, then a code
chunk; run_code denied and granted. -/
theorem respond_confirmation_witness :
    respondGo (fun _ => false) false 0
      ([{type := some "console", content := some (.text "x")}] ++
        {type := some "confirmation", content := some (.text "c")} ::
        [{type := some "code", content := some (.text "y")}]) .done =
      [{type := some "console", content := some (.text "x")}] ++ [complete_message] ∧
    respondGo (fun _ => false) true 0
      ([{type := some "console", content := some (.text "x")}] ++
        {type := some "confirmation", content := some (.text "c")} ::
        [{type := some "code", content := some (.text "y")}]) .done =
      [{type := some "console", content := some (.text "x")}] ++
        respondGo (fun _ => false) false (0 + 1 + 1)
          [{type := some "code", content := some (.text "y")}] .done :=
  respond_confirmation (fun _ => false) 0
    [{type := some "console", content := some (.text "x")}]
    [{type := some "code", content := some (.text "y")}]
    {type := some "confirmation", content := some (.text "c")} .done
    (fun _ => rfl)
    (by intro c hc
        simp only [List.mem_singleton] at hc
        exact ⟨"console", by rw [hc], by decide⟩)
    rfl

/-- Claim C6: when the stop event is observed set at the check following a
pulled chunk, respond returns at once — that chunk, every later chunk, and
the completion sentinel are all left unpushed; only the chunks already
forwarded remain on the queue. -/
theorem respond_cancelled (stopped : Nat → Bool) (rc : Bool) (i : Nat)
    (pre post : List Msg) (c : Msg) (outcome : GenOutcome)
    (hpre : ∀ x ∈ pre, ∃ t, x.type = some t ∧ t ≠ "confirmation")
    (hstopPre : ∀ j, j < pre.length → stopped (i + j) = false)
    (hc : ∃ t, c.type = some t ∧ t ≠ "confirmation")
    (hstop : stopped (i + pre.length) = true) :
    respondGo stopped rc i (pre ++ c :: post) outcome = pre := by
  induction pre generalizing i with
  | nil =>
    obtain ⟨t, hct, htc⟩ := hc
    have hs : stopped i = true := by simpa using hstop
    simp [respondGo, hct, beq_false_of_ne htc, hs]
  | cons x pre ih =>
    obtain ⟨t, hxt, hxc⟩ := hpre x (List.mem_cons_self x pre)
    have hs0 : stopped i = false := by simpa using hstopPre 0 (by simp)
    have hpre₂ : ∀ y ∈ pre, ∃ t, y.type = some t ∧ t ≠ "confirmation" :=
      fun y hy => hpre y (List.mem_cons_of_mem x hy)
    have hstopPre₂ : ∀ j, j < pre.length → stopped (i + 1 + j) = false := by
      intro j hj
      have := hstopPre (j + 1) (by simpa using Nat.succ_lt_succ hj)
      simpa [Nat.add_assoc, Nat.add_comm 1 j] using this
    have hstop₂ : stopped (i + 1 + pre.length) = true := by
      have : i + 1 + pre.length = i + (pre.length + 1) := by omega
      rw [this]
      simpa using hstop
    have e := ih (i + 1) hpre₂ hstopPre₂ hstop₂
    simp [respondGo, hxt, beq_false_of_ne hxc, hs0, e]

/-- Witness for C6: the stop event reads set right after the second chunk
is pulled; only the first chunk is pushed and no sentinel appears. -/
theorem respond_cancelled_witness :
    respondGo (fun j => j == 1) true 0
      ([{type := some "message", content := some (.text "x")}] ++
        {type := some "message", content := some (.text "y")} ::
        [{type := some "message", content := some (.text "z")}]) .done =
      [{type := some "message", content := some (.text "x")}] :=
  respond_cancelled (fun j => j == 1) true 0
    [{type := some "message", content := some (.text "x")}]
    [{type := some "message", content := some (.text "z")}]
    {type := some "message", content := some (.text "y")} .done
    (by intro x hx
        simp only [List.mem_singleton] at hx
        exact ⟨"message", by rw [hx], by decide⟩)
    (by intro j hj
        simp only [List.length_singleton, Nat.lt_one_iff] at hj
        subst hj
        rfl)
    ⟨"message", rfl, by decide⟩
    rfl

/-! ## Theorems about the input dispatcher -/

/-- Counterexample to claim C7 as stated: on a fresh agent that never
started a response cycle (`respond_thread` still `None`), the stop command
raises `AttributeError` at `self.respond_thread.join()` — the stop command
is not a no-op in every idle state. -/
theorem inputStep_stop_fresh_raises_cex :
    inputStep
      {messages := [{type := some "command", content := some (.text "stop")}],
        threadAlive := none, stopEvent := false}
      {endM := true} = .error .attributeError := by
  decide

/-- Claim C7 (amended): when an end chunk arrives with the last logical
message being `{type:"command", content:"stop"}` and a worker thread object
exists (alive or already finished), input pops the command message off the
log, sets the cancellation flag, joins the worker, and returns without
starting a new response cycle; when no worker object has ever existed
(`respond_thread` is `None`), the same stop command raises
`AttributeError` instead of being a no-op. -/
theorem inputStep_stop_command (ms : List Msg) (l c : Msg) (st : Bool) (alive : Bool)
    (hl : l.type = some "command") (hlc : l.content = some (.text "stop"))
    (hstart : c.start = false) (hcontent : c.content = none) (hend : c.endM = true) :
    inputStep {messages := ms ++ [l], threadAlive := some alive, stopEvent := st} c =
      .ok ({messages := ms, threadAlive := some false, stopEvent := true}, .noCycle) ∧
    inputStep {messages := ms ++ [l], threadAlive := none, stopEvent := st} c =
      .error .attributeError := by
  constructor <;>
    simp [inputStep, hstart, hcontent, hend, List.getLast?_concat, hl, hlc,
      List.dropLast_concat]

/-- Witness for C7 (amended): a stop command ending while a live worker
runs, on a one-message log. -/
theorem inputStep_stop_command_witness :
    inputStep
      {messages := [] ++ [{type := some "command", content := some (.text "stop")}],
        threadAlive := some true, stopEvent := false}
      {endM := true} =
      .ok ({messages := [], threadAlive := some false, stopEvent := true}, .noCycle) ∧
    inputStep
      {messages := [] ++ [{type := some "command", content := some (.text "stop")}],
        threadAlive := none, stopEvent := false}
      {endM := true} =
      .error .attributeError :=
  inputStep_stop_command [] {type := some "command", content := some (.text "stop")}
    {endM := true} false true rfl rfl rfl rfl rfl

/-! ## Theorems about the delivery worker -/

/-- An acknowledgment that never arrives makes the inner poll loop run its
full fuel and report failure. -/
lemma ackPoll_never (ack : Nat → Bool) (h : ∀ j, ack j = false) :
    ∀ fuel used, ackPoll ack fuel used = (used + fuel, false) := by
  intro fuel
  induction fuel with
  | zero => intro used; simp [ackPoll]
  | succ n ihn =>
    intro used
    have e := ihn (used + 1)
    simp [ackPoll, h used, e]
    omega

/-- Claim C8: in acknowledgment mode, a non-binary output item whose
identifier never appears in the acknowledged set is attempted exactly the
outer ceiling of 100 times, each attempt polling through the full inner
ceiling of 1000 membership checks, and after the last attempt the delivery
is reported failed. -/
theorem send_never_acknowledged (ack : Nat → Nat → Bool)
    (h : ∀ a j, ack a j = false) :
    sendOutput ack = (List.replicate 100 1000, .deliveryFailure) := by
  have hgo : ∀ fuel a, sendGo ack a fuel =
      (List.replicate fuel ACK_POLLS, .deliveryFailure) := by
    intro fuel
    induction fuel with
    | zero => intro a; simp [sendGo]
    | succ n ihn =>
      intro a
      have hp := ackPoll_never (ack a) (h a) ACK_POLLS 0
      simp [sendGo, hp, ihn (a + 1), List.replicate_succ]
  exact hgo SEND_ATTEMPTS 0

/-- Witness for C8: the constantly-empty acknowledgment set. -/
theorem send_never_acknowledged_witness :
    sendOutput (fun _ _ => false) = (List.replicate 100 1000, .deliveryFailure) :=
  send_never_acknowledged (fun _ _ => false) (fun _ _ => rfl)

end AsyncCore
